import Mathlib

/-!
Verification development for the `genconstructor` Go package
(go-genconstructor): a code generator that scans a directory of Go
source files for struct type declarations carrying a `//genconstructor`
doc-comment marker and emits one constructor function per marked struct.

The definitions below are a shallow embedding of the package's source
(`genconstructor.go`): pure helper functions are translated to Lean
functions, and the effectful body of `Run` is translated to explicit
result passing, where a Go `return err` becomes `RunResult.error` and a
Go `panic` becomes `RunResult.panicked`.  Strings are modelled over
their character lists; the Go code indexes bytes, which coincides with
characters on ASCII input (all inputs of interest here are ASCII).
-/

namespace Genconstructor

/-! ### Generic string helpers (models of Go `strings` / `path` functions) -/

/-- The double-quote character. -/
def dquoteChar : Char := Char.ofNat 34

/-- The backquote character (Go raw-string delimiter around struct tags). -/
def backquoteChar : Char := Char.ofNat 96

/-- The backslash character. -/
def backslashChar : Char := Char.ofNat 92

/-- Model of `unicode.IsSpace` restricted to ASCII: space, tab, newline,
vertical tab, form feed, carriage return. -/
def isGoSpace (c : Char) : Bool :=
  c = ' ' || c = Char.ofNat 9 || c = Char.ofNat 10 || c = Char.ofNat 11 ||
  c = Char.ofNat 12 || c = Char.ofNat 13

/-- Model of `strings.HasPrefix(s, pre)`: the characters of `pre` are a
prefix of the characters of `s`. -/
def hasPrefixGo (s pre : String) : Bool :=
  pre.toList.isPrefixOf s.toList

/-- Model of `strings.TrimSpace`: drop whitespace from both ends. -/
def trimSpaceGo (s : String) : String :=
  String.mk ((((s.toList.dropWhile isGoSpace).reverse).dropWhile isGoSpace).reverse)

/-- Model of `strings.Trim(s, string(c))` for a one-character cutset:
drop every leading and trailing occurrence of `c`. -/
def trimCharBoth (c : Char) (s : String) : String :=
  String.mk ((((s.toList.dropWhile (fun d => d = c)).reverse).dropWhile (fun d => d = c)).reverse)

/-- Worker for `fieldsFunc`: accumulate the current run of kept
characters (reversed) and cut a field at every non-kept character. -/
def fieldsFuncAux (keep : Char → Bool) : List Char → List Char → List String
  | [], acc => if acc.isEmpty then [] else [String.mk acc.reverse]
  | c :: cs, acc =>
    if keep c then fieldsFuncAux keep cs (c :: acc)
    else if acc.isEmpty then fieldsFuncAux keep cs []
    else String.mk acc.reverse :: fieldsFuncAux keep cs []

/-- Model of `strings.FieldsFunc(s, f)` with `keep = not ∘ f`: the maximal
runs of characters satisfying `keep`. -/
def fieldsFunc (keep : Char → Bool) (s : String) : List String :=
  fieldsFuncAux keep s.toList []

/-- Model of `strings.Fields`: split around runs of whitespace. -/
def strFields (s : String) : List String :=
  fieldsFunc (fun c => !isGoSpace c) s

/-- Model of Go `path.Base`: the last element of a slash-separated path,
after dropping trailing slashes; "." for the empty path, "/" if the
path consists entirely of slashes. -/
def pathBase (p : String) : String :=
  if p.isEmpty then "."
  else
    let stripped := ((p.toList.reverse).dropWhile (fun c => c = '/')).reverse
    if stripped.isEmpty then "/"
    else String.mk (((stripped.reverse).takeWhile (fun c => c ≠ '/')).reverse)

/-- Model of `strings.SplitN(s, ".", 2)`: `some (before, after)` split at
the first dot when `s` contains a dot, otherwise `none` (the length-1
result of `SplitN`). -/
def splitAtFirstDot (s : String) : Option (String × String) :=
  match s.splitOn "." with
  | [] => none
  | [_] => none
  | p :: rest => some (p, String.intercalate "." rest)

/-! ### Model of `reflect.StructTag.Lookup` and `strconv.Unquote`

`Run` reads the raw field tag, trims the surrounding backquotes and uses
`reflect.StructTag.Lookup("required")` on it.  The loop of `Lookup`
(from the Go standard library) is translated below with explicit fuel;
each iteration of the Go loop consumes at least one character of the
tag, so fuel `tag.length + 1` never runs out. -/

/-- A character that may appear in a tag key, per the scan in
`reflect.StructTag.Lookup`: a byte greater than space that is not a
colon, a double quote or 0x7f. -/
def tagNameChar (c : Char) : Bool :=
  decide (32 < c.toNat) && c ≠ ':' && c ≠ dquoteChar && c.toNat ≠ 127

/-- Scan of the quoted tag value in `reflect.StructTag.Lookup`: find the
offset of the closing quote, a backslash escaping the following
character; `none` if the quote is never closed. -/
def findCloseQuote : List Char → Option Nat
  | [] => none
  | c :: cs =>
    if c = dquoteChar then some 0
    else if c = backslashChar then
      match cs with
      | [] => none
      | _ :: cs2 => Option.map (fun j => j + 2) (findCloseQuote cs2)
    else Option.map (fun j => j + 1) (findCloseQuote cs)

/-- Model of `strconv.Unquote` restricted to escape-free double-quoted
strings (the only shape produced by the tags considered here): strip the
quotes, failing on any embedded backslash or quote. -/
def unquoteSimple (qvalue : List Char) : Option String :=
  match qvalue with
  | [] => none
  | c :: rest =>
    if c = dquoteChar && !rest.isEmpty && rest.getLast? = some dquoteChar &&
       rest.dropLast.all (fun ch => ch ≠ backslashChar && ch ≠ dquoteChar)
    then some (String.mk rest.dropLast)
    else none

/-- One-to-one translation of the loop of `reflect.StructTag.Lookup`:
skip spaces, scan the key, demand `:` followed by a double-quoted value,
and unquote the value when the key matches. -/
def tagLookupAux (key : List Char) : Nat → List Char → Option String
  | 0, _ => none
  | fuel + 1, tag =>
    let t1 := tag.dropWhile (fun c => c = ' ')
    if t1.isEmpty then none
    else
      let nameChars := t1.takeWhile tagNameChar
      if nameChars.isEmpty then none
      else
        match t1.drop nameChars.length with
        | ':' :: rest1 =>
          match rest1 with
          | [] => none
          | c :: _ =>
            if c = dquoteChar then
              match findCloseQuote (rest1.drop 1) with
              | none => none
              | some j =>
                let qvalue := rest1.take (j + 2)
                let remainder := rest1.drop (j + 2)
                if key = nameChars then unquoteSimple qvalue
                else tagLookupAux key fuel remainder
            else none
        | _ => none

/-- Model of `reflect.StructTag(tag).Lookup(key)`. -/
def tagLookup (key : String) (tag : String) : Option String :=
  tagLookupAux key.toList (tag.length + 1) tag.toList

/-- `strings.Trim(field.Tag.Value, backquote)` as applied by `Run`. -/
def trimBackquotes (s : String) : String :=
  trimCharBoth backquoteChar s

/-! ### Model of the Go AST fragments `Run` inspects -/

/-- A Go type expression as it appears as a struct field type.  `ident`
is `*ast.Ident`, `selector` is the `pkg.Name` shape of
`*ast.SelectorExpr`, `star` is `*ast.StarExpr`, and `bad` stands for a
malformed node that `printer.Fprint` fails to print. -/
inductive Expr where
  | ident (name : String)
  | selector (pkg : String) (sel : String)
  | star (e : Expr)
  | bad
deriving DecidableEq

/-- Message produced when printing a malformed node fails. -/
def printErrMsg : String := "go/printer: unsupported node type"

/-- Model of `printer.Fprint(b, fset, field.Type)` capturing the printed
text or the error. -/
def printExpr : Expr → Except String String
  | Expr.ident n => Except.ok n
  | Expr.selector p s => Except.ok (p ++ "." ++ s)
  | Expr.star e => Except.map (fun t => "*" ++ t) (printExpr e)
  | Expr.bad => Except.error printErrMsg

/-- A struct field of the parsed source: `field.Names` (empty for an
embedded field), `field.Type`, and the raw `field.Tag.Value` (still
carrying its backquotes) when a tag is present. -/
structure Field where
  names : List String
  type : Expr
  tag : Option String
deriving DecidableEq

/-- An `*ast.ImportSpec`: optional alias and the quoted path literal
(`Path.Value`, quotes included). -/
structure ImportSpec where
  name : Option String
  pathValue : String
deriving DecidableEq

/-- The declared type of a `*ast.TypeSpec`: a struct type with its
fields, or any other type. -/
inductive TypeDef where
  | structType (fields : List Field)
  | nonStruct
deriving DecidableEq

/-- An `*ast.TypeSpec`: the type name and the declared type. -/
structure TypeSpec where
  name : String
  type : TypeDef
deriving DecidableEq

/-- A top-level declaration: a `type` `*ast.GenDecl` with its doc
comment lines and its specs, or any other declaration (skipped by
`Run`).  A missing doc comment is the empty line list. -/
inductive Decl where
  | typeDecl (doc : List String) (specs : List TypeSpec)
  | other
deriving DecidableEq

/-- An `*ast.File`: its declarations and its import declarations. -/
structure GoFile where
  decls : List Decl
  imports : List ImportSpec
deriving DecidableEq

/-- An `*ast.Package`: name and files keyed by file name. -/
structure Package where
  name : String
  files : List (String × GoFile)
deriving DecidableEq

/-! ### The genconstructor definitions -/

/-- The comment marker constant. -/
def commentMarker : String := "//genconstructor"

/-- The pointer option constant. -/
def pointerOpts : String := "-p"

/-- Translation of the marker scan of `Run`: walk the doc comment lines;
at the first line whose trimmed text starts with the marker, report the
marker as found together with whether any whitespace-separated field of
that line equals the pointer option. -/
def findMarker : List String → Bool × Bool
  | [] => (false, false)
  | c :: rest =>
    if hasPrefixGo (trimSpaceGo c) commentMarker then
      (true, (strFields c).contains pointerOpts)
    else findMarker rest

/-- The `commonInitialisms` map of the source, translated to membership
in the list of its keys (every stored value is `true`). -/
def commonInitialisms (s : String) : Bool :=
  ["acl", "api", "ascii", "cpu", "css", "dns", "eof", "guid", "html",
   "http", "https", "id", "ip", "json", "lhs", "qps", "ram", "rhs",
   "rpc", "sla", "smtp", "sql", "ssh", "tcp", "tls", "ttl", "udp",
   "ui", "uid", "uuid", "uri", "url", "utf8", "vm", "xml", "xmpp",
   "xsrf", "xss"].contains s

/-- Translation of `toLowerCamel`: compute the leading run of uppercase
letters; if that run is a key of `commonInitialisms`, lowercase the
whole run, otherwise lowercase only the first character. -/
def toLowerCamel (s : String) : String :=
  if s = "" then s
  else
    let cs := s.toList
    let upperRun := cs.takeWhile Char.isUpper
    if commonInitialisms (String.mk upperRun) then
      String.mk (upperRun.map Char.toLower) ++ String.mk (cs.drop upperRun.length)
    else
      match cs with
      | [] => s
      | c :: rest => String.mk (Char.toLower c :: rest)

/-- The `FieldInfo` record of the source (field `Type` is renamed
`ftype` and `Name` is renamed `fname`, `Type` being reserved in Lean). -/
structure FieldInfo where
  ftype : String
  fname : String
  constValue : String
deriving DecidableEq

/-- The `tmplParam` record of the source. -/
structure TmplParam where
  StructName : String
  Fields : List FieldInfo
  Pointer : Bool
deriving DecidableEq

/-- The constructor template's parameter branch for one field:
`{{ if not .ConstValue }}` emits `ToLowerCamel .Name`, `.Type`; a
non-empty constant suppresses the parameter. -/
def paramOf (f : FieldInfo) : Option (String × String) :=
  if f.constValue = "" then some (toLowerCamel f.fname, f.ftype) else none

/-- The constructor template's initializer branch for one field:
`{{ if .ConstValue }}` emits the constant, otherwise the lower-camel
parameter name. -/
def initOf (f : FieldInfo) : String × String :=
  if f.constValue = "" then (f.fname, toLowerCamel f.fname) else (f.fname, f.constValue)

/-- The parameter list emitted by the constructor template, in field
order. -/
def constructorParams (p : TmplParam) : List (String × String) :=
  p.Fields.filterMap paramOf

/-- The composite-literal initializers emitted by the constructor
template, one per collected field, in field order. -/
def constructorInits (p : TmplParam) : List (String × String) :=
  p.Fields.map initOf

/-- The return type emitted by the constructor template:
`{{ if .Pointer }}*{{ end }}{{ .StructName }}`. -/
def constructorReturnType (p : TmplParam) : String :=
  (if p.Pointer then "*" else "") ++ p.StructName

/-- The head of the returned composite literal:
`{{ if .Pointer }}&{{ end }}{{ .StructName }}`. -/
def constructorLiteralHead (p : TmplParam) : String :=
  (if p.Pointer then "&" else "") ++ p.StructName

/-- Rendering of the constructor template with the template's
whitespace simplified (the generated text is normalised downstream by
`format.Source`): the parameter list, the return type, and the
composite literal whose keys enumerate every collected field. -/
def renderConstructor (p : TmplParam) : String :=
  "func New" ++ p.StructName ++ "(\n" ++
  String.join ((constructorParams p).map (fun q => q.1 ++ " " ++ q.2 ++ ",\n")) ++
  ") " ++ constructorReturnType p ++ " \x7b\n" ++
  "return " ++ constructorLiteralHead p ++ "\x7b\n" ++
  String.join ((constructorInits p).map (fun q => q.1 ++ ": " ++ q.2 ++ ",\n")) ++
  "\x7d\n\x7d\n"

/-! ### The body of `Run`, with `return err` as `RunResult.error` and
`panic` as `RunResult.panicked` -/

/-- Outcome of a code path of `Run`: normal value, error value returned
to the caller, or panic. -/
inductive RunResult (α : Type) where
  | ok (a : α)
  | error (e : String)
  | panicked (msg : String)
deriving DecidableEq

/-- The Go runtime message for the failed type assertion
`field.Type.(*ast.Ident)` (its exact text varies with the dynamic type;
the model fixes one text). -/
def assertIdentMsg : String := "interface conversion: ast.Expr is not *ast.Ident"

/-- The field-name extraction of `Run`: the first declared name, or for
an embedded field the type asserted to a plain identifier — a non-ident
embedded type panics. -/
def fieldNameOf (f : Field) : RunResult String :=
  match f.names with
  | n :: _ => RunResult.ok n
  | [] =>
    match f.type with
    | Expr.ident n => RunResult.ok n
    | _ => RunResult.panicked assertIdentMsg

/-- Translation of the field loop of `Run`: skip a field without a tag;
skip a field whose backquote-trimmed tag has no `required` key; print
the field type, returning the error on failure; extract the field name
(possibly panicking); record `(printed type, name, tag value)`. -/
def collectFields : List Field → RunResult (List FieldInfo)
  | [] => RunResult.ok []
  | f :: rest =>
    match f.tag with
    | none => collectFields rest
    | some tg =>
      match tagLookup "required" (trimBackquotes tg) with
      | none => collectFields rest
      | some v =>
        match printExpr f.type with
        | Except.error e => RunResult.error e
        | Except.ok t =>
          match fieldNameOf f with
          | RunResult.error e => RunResult.error e
          | RunResult.panicked m => RunResult.panicked m
          | RunResult.ok nm =>
            match collectFields rest with
            | RunResult.ok infos => RunResult.ok (⟨t, nm, v⟩ :: infos)
            | RunResult.error e => RunResult.error e
            | RunResult.panicked m => RunResult.panicked m

/-- The import-matching loop of `Run` over one `pkg.Ident` reference:
the first import whose alias — or, for an unaliased import, the last
segment of its unquoted path — equals the package name. -/
def findImport : List ImportSpec → String → Option ImportSpec
  | [], _ => none
  | imp :: rest, q =>
    match imp.name with
    | none =>
      if pathBase (trimCharBoth dquoteChar imp.pathValue) = q then some imp
      else findImport rest q
    | some nm => if nm = q then some imp else findImport rest q

/-- The tokens of a field type text considered for import resolution:
`strings.FieldsFunc` splitting on characters that are neither letters
nor dots. -/
def typeTokens (t : String) : List String :=
  fieldsFunc (fun c => c.isAlpha || c = '.') t

/-- Imports recorded for one token: when `strings.SplitN(s, ".", 2)`
yields two parts, the first matching import (if any). -/
def resolveRef (imports : List ImportSpec) (tok : String) : List ImportSpec :=
  match splitAtFirstDot tok with
  | none => []
  | some qs =>
    match findImport imports qs.1 with
    | some imp => [imp]
    | none => []

/-- The import-resolution loop of `Run` for one field type text. -/
def resolveImports (t : String) (imports : List ImportSpec) : List ImportSpec :=
  (typeTokens t).foldl (fun acc tok => acc ++ resolveRef imports tok) []

/-- Imports accumulated by `Run` over the collected fields of one
struct, in field order. -/
def importsFor (imports : List ImportSpec) (infos : List FieldInfo) : List ImportSpec :=
  infos.foldl (fun acc fi => acc ++ resolveImports fi.ftype imports) []

/-! ### `fmtImports` -/

/-- Order on import specs used by the `sort.Slice` call of
`fmtImports`: comparison of the quoted path literals. -/
def importLe (a b : ImportSpec) : Prop := a.pathValue ≤ b.pathValue

instance : DecidableRel importLe :=
  fun a b => inferInstanceAs (Decidable (a.pathValue ≤ b.pathValue))

instance : IsTotal ImportSpec importLe :=
  ⟨fun a b => le_total a.pathValue b.pathValue⟩

instance : IsTrans ImportSpec importLe :=
  ⟨fun _ _ _ h1 h2 => le_trans h1 h2⟩

/-- The in-place sort of one import group (`sort.Slice` with `<` on
`Path.Value`, modelled by a deterministic stable sort realising the
same order). -/
def sortByPathValue (g : List ImportSpec) : List ImportSpec :=
  List.insertionSort importLe g

/-- Model of `printer.Fprint` on an `*ast.ImportSpec`: the alias (when
present) followed by the quoted path. -/
def importLine (imp : ImportSpec) : String :=
  match imp.name with
  | some n => n ++ " " ++ imp.pathValue
  | none => imp.pathValue

/-- The grouping test of `fmtImports`: fewer than three slash-separated
segments of the quoted path and no dot character in it. -/
def isLibGroup (p : ImportSpec) : Bool :=
  decide ((p.pathValue.splitOn "/").length < 3) && !(p.pathValue.contains '.')

/-- One group of the import block: each import on its own line, then the
blank line the buffer receives after every group. -/
def renderGroup (g : List ImportSpec) : String :=
  String.join ((sortByPathValue g).map (fun p => importLine p ++ "\n")) ++ "\n"

/-- Translation of `fmtImports`: empty input gives the empty string;
otherwise distribute the imports over the two groups in order, sort and
render each group, and wrap the result in an `import ( … )` block. -/
def fmtImports (pkgs : List ImportSpec) : String :=
  if pkgs.isEmpty then ""
  else
    let groups := pkgs.foldl
      (fun (g : List ImportSpec × List ImportSpec) p =>
        if isLibGroup p then (g.1 ++ [p], g.2) else (g.1, g.2 ++ [p]))
      ([], [])
    "import (\n" ++ renderGroup groups.1 ++ renderGroup groups.2 ++ "\n\t\t)"

/-! ### The per-package pipeline of `Run`

The two text templates of `Run` are fixed strings, so in a faithful run
their parsing and execution succeed; a `FailureEnv` injects the
hypothetical failures of those external calls (and of `format.Source`
and the output writer) so that the propagation choices of `Run` — which
failures panic, which are returned — can be stated. -/

/-- Injected failures of the external calls made by `Run`. -/
structure FailureEnv where
  ctorParseFails : Bool
  ctorExecFails : Bool
  outParseFails : Bool
  outExecFails : Bool
  formatFails : Bool
  writeFails : Bool
deriving DecidableEq

/-- The faithful environment: no external call fails. -/
def noFailures : FailureEnv := ⟨false, false, false, false, false, false⟩

/-- Message of a constructor-template parse failure. -/
def ctorParseMsg : String := "template: constructor parse error"

/-- Message of a constructor-template execution failure. -/
def ctorExecMsg : String := "template: constructor execute error"

/-- Message of an out-template parse failure. -/
def outParseMsg : String := "template: out parse error"

/-- Message of an out-template execution failure. -/
def outExecMsg : String := "template: out execute error"

/-- Message of a `format.Source` failure. -/
def formatMsg : String := "format source error"

/-- Message of a writer failure. -/
def writeMsg : String := "write error"

/-- Processing of one `*ast.TypeSpec` of a marked declaration: skip a
non-struct spec; collect the fields (print failure returns, embedded
non-ident panics); resolve imports for the collected field types; then
`template.Must(...).Parse` panics on a parse failure, the `Execute`
whose error `Run` passes to `panic` panics on an execution failure, and
otherwise the rendered constructor is appended. -/
def processSpec (env : FailureEnv) (fileImports : List ImportSpec) (ptr : Bool)
    (sp : TypeSpec) : RunResult (String × List ImportSpec) :=
  match sp.type with
  | TypeDef.nonStruct => RunResult.ok ("", [])
  | TypeDef.structType fields =>
    match collectFields fields with
    | RunResult.error e => RunResult.error e
    | RunResult.panicked m => RunResult.panicked m
    | RunResult.ok infos =>
      if env.ctorParseFails then RunResult.panicked ctorParseMsg
      else if env.ctorExecFails then RunResult.panicked ctorExecMsg
      else RunResult.ok (renderConstructor ⟨sp.name, infos, ptr⟩, importsFor fileImports infos)

/-- Processing of one declaration: only a `type` declaration whose doc
comment carries the marker contributes; its specs are processed in
order, accumulating rendered constructors and recorded imports. -/
def processDecl (env : FailureEnv) (fileImports : List ImportSpec) :
    Decl → RunResult (String × List ImportSpec)
  | Decl.other => RunResult.ok ("", [])
  | Decl.typeDecl doc specs =>
    let mk := findMarker doc
    if !mk.1 then RunResult.ok ("", [])
    else
      specs.foldl
        (fun acc sp =>
          match acc with
          | RunResult.ok bi =>
            match processSpec env fileImports mk.2 sp with
            | RunResult.ok bi2 => RunResult.ok (bi.1 ++ bi2.1, bi.2 ++ bi2.2)
            | RunResult.error e => RunResult.error e
            | RunResult.panicked m => RunResult.panicked m
          | RunResult.error e => RunResult.error e
          | RunResult.panicked m => RunResult.panicked m)
        (RunResult.ok ("", []))

/-- Processing of one file: its declarations in order, resolving
against the file's own imports. -/
def processFile (env : FailureEnv) (f : GoFile) : RunResult (String × List ImportSpec) :=
  f.decls.foldl
    (fun acc d =>
      match acc with
      | RunResult.ok bi =>
        match processDecl env f.imports d with
        | RunResult.ok bi2 => RunResult.ok (bi.1 ++ bi2.1, bi.2 ++ bi2.2)
        | RunResult.error e => RunResult.error e
        | RunResult.panicked m => RunResult.panicked m
      | RunResult.error e => RunResult.error e
      | RunResult.panicked m => RunResult.panicked m)
    (RunResult.ok ("", []))

/-- Order on the file list used by the `sort.Strings` call of `Run`:
comparison of file names. -/
def fileLe (a b : String × GoFile) : Prop := a.1 ≤ b.1

instance : DecidableRel fileLe :=
  fun a b => inferInstanceAs (Decidable (a.1 ≤ b.1))

/-- The file list sorted by name (`sort.Strings` over the map keys). -/
def sortedFiles (pkg : Package) : List (String × GoFile) :=
  List.insertionSort fileLe pkg.files

/-- The declaration scan of `Run` over one package: all files in name
order, accumulating the body text and the recorded imports. -/
def runPackageBody (env : FailureEnv) (pkg : Package) : RunResult (String × List ImportSpec) :=
  (sortedFiles pkg).foldl
    (fun acc nf =>
      match acc with
      | RunResult.ok bi =>
        match processFile env nf.2 with
        | RunResult.ok bi2 => RunResult.ok (bi.1 ++ bi2.1, bi.2 ++ bi2.2)
        | RunResult.error e => RunResult.error e
        | RunResult.panicked m => RunResult.panicked m
      | RunResult.error e => RunResult.error e
      | RunResult.panicked m => RunResult.panicked m)
    (RunResult.ok ("", []))

/-- The generated file for one package, whitespace simplified (the text
is normalised by `format.Source`): the generated-code header with the
default generator name, the package clause, the import block and the
body. -/
def renderFile (pkgName : String) (imps : List ImportSpec) (body : String) : String :=
  "// Code generated by go-genconstructor; DO NOT EDIT.\n\npackage " ++ pkgName ++
  "\n\n" ++ fmtImports imps ++ "\n\n" ++ body

/-- The per-package tail of `Run`: an empty body produces no output;
then the out template is parsed under `template.Must` (panic on
failure), executed (its error is returned), the result is formatted and
written (both errors returned).  `RunResult.ok none` is a package for
which no file is generated, `RunResult.ok (some s)` a written file. -/
def runPackage (env : FailureEnv) (pkg : Package) : RunResult (Option String) :=
  match runPackageBody env pkg with
  | RunResult.error e => RunResult.error e
  | RunResult.panicked m => RunResult.panicked m
  | RunResult.ok bi =>
    if bi.1 = "" then RunResult.ok none
    else if env.outParseFails then RunResult.panicked outParseMsg
    else if env.outExecFails then RunResult.error outExecMsg
    else if env.formatFails then RunResult.error formatMsg
    else if env.writeFails then RunResult.error writeMsg
    else RunResult.ok (some (renderFile pkg.name bi.2 bi.1))

/-- Outcome of a whole run over a package list: the files written so
far, and whether the run completed, returned an error, or panicked.
Writes are per package and immediate, so files written before a failure
remain. -/
inductive RunOutcome where
  | ok (written : List String)
  | error (written : List String) (e : String)
  | panicked (written : List String) (msg : String)
deriving DecidableEq

/-- The package loop of `Run`: process the packages in order, stopping
at the first returned error or panic. -/
def runAll (env : FailureEnv) : List Package → RunOutcome
  | [] => RunOutcome.ok []
  | p :: rest =>
    match runPackage env p with
    | RunResult.error e => RunOutcome.error [] e
    | RunResult.panicked m => RunOutcome.panicked [] m
    | RunResult.ok none => runAll env rest
    | RunResult.ok (some out) =>
      match runAll env rest with
      | RunOutcome.ok os => RunOutcome.ok (out :: os)
      | RunOutcome.error os e => RunOutcome.error (out :: os) e
      | RunOutcome.panicked os m => RunOutcome.panicked (out :: os) m

/-- The files a prefix of the package list writes when every one of its
packages processes successfully. -/
def writtenOf (env : FailureEnv) (pkgs : List Package) : List String :=
  pkgs.filterMap (fun p =>
    match runPackage env p with
    | RunResult.ok (some o) => some o
    | _ => none)

/-- A package holding a single file with a single type declaration —
the concrete shape used to state claims about `Run`'s control flow. -/
def mkSinglePkg (pn fn : String) (doc : List String) (tname : String)
    (fields : List Field) (imps : List ImportSpec) : Package :=
  ⟨pn, [(fn, ⟨[Decl.typeDecl doc [⟨tname, TypeDef.structType fields⟩]], imps⟩)]⟩

/-! ### Definitions following the words of the specification

Each definition below is written from a claim's wording, not from the
source, and is compared against the source-translated definitions in
the theorems. -/

/-- Claim-side marker test: the first whitespace-separated word of the
trimmed comment line is exactly the marker token. -/
def firstWordIsMarker (line : String) : Bool :=
  match strFields (trimSpaceGo line) with
  | [] => false
  | w :: _ => w == commentMarker

/-- Claim-side import resolution of one token: a `package.Identifier`
token is matched against the imports by alias name or, for unaliased
imports, by the last segment of the import path; the first match is
recorded. -/
def specResolveOne (imports : List ImportSpec) (tok : String) : Option ImportSpec :=
  match splitAtFirstDot tok with
  | none => none
  | some qs =>
    imports.find? (fun imp =>
      match imp.name with
      | some nm => nm == qs.1
      | none => pathBase (trimCharBoth dquoteChar imp.pathValue) == qs.1)

/-- Claim-side import resolution of a field type text: every matched
token records its import, an unmatched token records nothing. -/
def specResolveImports (t : String) (imports : List ImportSpec) : List ImportSpec :=
  (typeTokens t).filterMap (specResolveOne imports)

/-- Claim-side import block: partition the imports into the
library-style group and the rest, render each group sorted, separated
by a blank line. -/
def specFmtImports (pkgs : List ImportSpec) : String :=
  if pkgs.isEmpty then ""
  else
    "import (\n" ++ renderGroup (pkgs.filter isLibGroup) ++
    renderGroup (pkgs.filter (fun p => !isLibGroup p)) ++ "\n\t\t)"

/-- Projection of a per-spec processing result on the rendered text,
used to state that the emitted constructor text does not depend on
the list of imports. -/
def bodyText : RunResult (String × List ImportSpec) → RunResult String
  | RunResult.ok bi => RunResult.ok bi.1
  | RunResult.error e => RunResult.error e
  | RunResult.panicked m => RunResult.panicked m

/-! ### Concrete instances used by the claims -/

/-- The struct of claim C1: `A string` untagged, `B int` tagged
`required:"7"`. -/
def c1Fields : List Field :=
  [⟨["A"], Expr.ident "string", none⟩,
   ⟨["B"], Expr.ident "int", some "`required:\"7\"`"⟩]

/-- The field infos `Run` collects for `c1Fields`. -/
def c1Infos : List FieldInfo := [⟨"int", "B", "7"⟩]

/-- The template parameter built for the struct of claim C1. -/
def c1Param : TmplParam := ⟨"Foo", c1Infos, false⟩

/-- A package with one marked struct holding one constant field. -/
def c4Pkg : Package :=
  mkSinglePkg "mypkg" "a.go" ["//genconstructor"] "Foo"
    [⟨["B"], Expr.ident "int", some "`required:\"7\"`"⟩] []

/-- Environment where only parsing the constructor template fails. -/
def envCtorParse : FailureEnv := ⟨true, false, false, false, false, false⟩

/-- Environment where only executing the constructor template fails. -/
def envCtorExec : FailureEnv := ⟨false, true, false, false, false, false⟩

/-- Environment where only parsing the out template fails. -/
def envOutParse : FailureEnv := ⟨false, false, true, false, false, false⟩

/-- Environment where only executing the out template fails. -/
def envOutExec : FailureEnv := ⟨false, false, false, true, false, false⟩

/-- A package whose marked struct embeds (namelessly) a field of
selector type `pkg.Type` with a `required` tag. -/
def c10Pkg : Package :=
  mkSinglePkg "p" "f.go" ["//genconstructor"] "T"
    [⟨[], Expr.selector "pkg" "Type", some "`required:\"v\"`"⟩] []

/-! ### Helper lemmas -/

theorem findMarker_fst (doc : List String) :
    (findMarker doc).1 = doc.any (fun c => hasPrefixGo (trimSpaceGo c) commentMarker) := by
  induction doc with
  | nil => rfl
  | cons c rest ih =>
    cases h : hasPrefixGo (trimSpaceGo c) commentMarker with
    | true => simp [findMarker, h]
    | false => simp [findMarker, h, ih]

theorem findMarker_of_find? (doc : List String) (line : String)
    (h : doc.find? (fun c => hasPrefixGo (trimSpaceGo c) commentMarker) = some line) :
    findMarker doc = (true, (strFields line).contains pointerOpts) := by
  induction doc with
  | nil => simp at h
  | cons c rest ih =>
    cases hc : hasPrefixGo (trimSpaceGo c) commentMarker with
    | true =>
      have hcl : c = line := by
        rw [List.find?_cons, hc] at h
        exact Option.some.inj h
      subst hcl
      simp [findMarker, hc]
    | false =>
      rw [List.find?_cons, hc] at h
      have := ih h
      simpa [findMarker, hc] using this

theorem findImport_eq_find? (imports : List ImportSpec) (q : String) :
    findImport imports q = imports.find? (fun imp =>
      match imp.name with
      | some nm => nm == q
      | none => pathBase (trimCharBoth dquoteChar imp.pathValue) == q) := by
  induction imports with
  | nil => rfl
  | cons imp rest ih =>
    cases hn : imp.name with
    | none =>
      by_cases hq : pathBase (trimCharBoth dquoteChar imp.pathValue) = q
      · simp [findImport, hn, hq]
      · simp [findImport, hn, hq, ih]
    | some nm =>
      by_cases hq : nm = q
      · simp [findImport, hn, hq]
      · simp [findImport, hn, hq, ih]

theorem resolveRef_eq_spec (imports : List ImportSpec) (tok : String) :
    resolveRef imports tok = (specResolveOne imports tok).toList := by
  cases h : splitAtFirstDot tok with
  | none => simp [resolveRef, specResolveOne, h]
  | some qs =>
    simp only [resolveRef, specResolveOne, h, findImport_eq_find?]
    cases List.find? (fun imp =>
      match imp.name with
      | some nm => nm == qs.1
      | none => pathBase (trimCharBoth dquoteChar imp.pathValue) == qs.1) imports with
    | none => rfl
    | some imp => rfl

theorem foldl_resolve (imports : List ImportSpec) (toks : List String)
    (acc : List ImportSpec) :
    toks.foldl (fun a tok => a ++ resolveRef imports tok) acc
      = acc ++ toks.filterMap (specResolveOne imports) := by
  induction toks generalizing acc with
  | nil => simp
  | cons t ts ih =>
    rw [List.foldl_cons, ih, resolveRef_eq_spec]
    cases h : specResolveOne imports t with
    | none => simp [h]
    | some imp => simp [h]

theorem foldl_groups (l : List ImportSpec) (a b : List ImportSpec) :
    l.foldl (fun g p => if isLibGroup p then (g.1 ++ [p], g.2) else (g.1, g.2 ++ [p])) (a, b)
      = (a ++ l.filter isLibGroup, b ++ l.filter (fun p => !isLibGroup p)) := by
  induction l generalizing a b with
  | nil => simp
  | cons p ps ih =>
    cases h : isLibGroup p with
    | true => simp [h, ih]
    | false => simp [h, ih]

theorem renderConstructor_ne_empty (p : TmplParam) : renderConstructor p ≠ "" := by
  intro h
  have h2 := congrArg String.length h
  rw [renderConstructor, String.length_append, String.length_append,
    String.length_append, String.length_append, String.length_append,
    String.length_append, String.length_append, String.length_append] at h2
  have h3 : ("func New").length + p.StructName.length = ("func New" ++ p.StructName).length := by
    rw [String.length_append]
  have h4 : ("func New").length = 8 := rfl
  simp at h2
  omega

theorem runAll_cons_ok (env : FailureEnv) (p : Package) (rest : List Package)
    (o : Option String) (h : runPackage env p = RunResult.ok o) :
    runAll env (p :: rest) =
      match o with
      | none => runAll env rest
      | some out =>
        match runAll env rest with
        | RunOutcome.ok os => RunOutcome.ok (out :: os)
        | RunOutcome.error os e => RunOutcome.error (out :: os) e
        | RunOutcome.panicked os m => RunOutcome.panicked (out :: os) m := by
  cases o with
  | none => simp [runAll, h]
  | some out => simp [runAll, h]

theorem runAll_append_ok (env : FailureEnv) (pre rest : List Package)
    (h : ∀ p ∈ pre, ∃ o, runPackage env p = RunResult.ok o) :
    runAll env (pre ++ rest) =
      match runAll env rest with
      | RunOutcome.ok os => RunOutcome.ok (writtenOf env pre ++ os)
      | RunOutcome.error os e => RunOutcome.error (writtenOf env pre ++ os) e
      | RunOutcome.panicked os m => RunOutcome.panicked (writtenOf env pre ++ os) m := by
  induction pre with
  | nil =>
    simp [writtenOf]
    cases runAll env rest with
    | ok os => rfl
    | error os e => rfl
    | panicked os m => rfl
  | cons p ps ih =>
    have hp := h p (by simp)
    obtain ⟨o, ho⟩ := hp
    have ihh := ih (fun q hq => h q (by simp [hq]))
    rw [List.cons_append, runAll_cons_ok env p (ps ++ rest) o ho]
    cases o with
    | none =>
      rw [ihh]
      have hw : writtenOf env (p :: ps) = writtenOf env ps := by
        simp [writtenOf, ho]
      rw [hw]
    | some out =>
      rw [ihh]
      have hw : writtenOf env (p :: ps) = out :: writtenOf env ps := by
        simp [writtenOf, ho]
      rw [hw]
      cases runAll env rest with
      | ok os => rfl
      | error os e => rfl
      | panicked os m => rfl

/-! ### Claim theorems -/

/-- C1 (counterexample): for the struct with fields `A string`
(untagged) and `B int` tagged `required:"7"`, `Run` collects only `B`,
so the generated constructor's parameter list is empty — not the single
parameter `a string` the claim asserts. -/
theorem c1_counterexample :
    collectFields c1Fields = RunResult.ok c1Infos
    ∧ constructorParams c1Param ≠ [("a", "string")] := by
  constructor
  · rfl
  · decide

/-- C1 (amended): an untagged field is skipped entirely: for the struct
with fields `A string` (untagged) and `B int` tagged `required:"7"`,
the generated constructor takes no parameters at all and returns the
struct literal initialising only `B` with the constant `7`; `A` appears
neither in the parameter list nor in the literal. -/
theorem c1_untagged_field_skipped :
    collectFields c1Fields = RunResult.ok c1Infos
    ∧ constructorParams c1Param = []
    ∧ constructorInits c1Param = [("B", "7")]
    ∧ constructorReturnType c1Param = "Foo" :=
  ⟨rfl, rfl, rfl, rfl⟩

/-- C2 (code bug): the initialism table's keys are lowercase while the
probed leading uppercase run is uppercase, so the table never matches
and the field name `ID` yields parameter name `iD`, not `id`; `Name`
still yields `name`. -/
theorem c2_initialism_table_never_matches :
    toLowerCamel "ID" = "iD" ∧ toLowerCamel "Name" = "name"
    ∧ commonInitialisms "ID" = false ∧ commonInitialisms "id" = true := by
  refine ⟨by decide, by decide, by decide, by decide⟩

/-- C3: a field whose tag has a `required` key is collected with the
tag's value verbatim; a non-empty value suppresses the parameter and is
emitted as the initializer constant, while the empty value turns the
field into an ordinary constructor parameter that initialises it. -/
theorem c3_required_value_modes :
    (∀ (n : String) (nr : List String) (ty : Expr) (tg v : String)
       (rest : List Field) (pt : String),
      tagLookup "required" (trimBackquotes tg) = some v →
      printExpr ty = Except.ok pt →
      collectFields (⟨n :: nr, ty, some tg⟩ :: rest) =
        (match collectFields rest with
         | RunResult.ok infos => RunResult.ok (⟨pt, n, v⟩ :: infos)
         | RunResult.error e => RunResult.error e
         | RunResult.panicked m => RunResult.panicked m))
    ∧ (∀ f : FieldInfo, f.constValue ≠ "" →
        paramOf f = none ∧ initOf f = (f.fname, f.constValue))
    ∧ (∀ f : FieldInfo, f.constValue = "" →
        paramOf f = some (toLowerCamel f.fname, f.ftype)
        ∧ initOf f = (f.fname, toLowerCamel f.fname))
    ∧ (∀ p : TmplParam, constructorParams p = p.Fields.filterMap paramOf
        ∧ constructorInits p = p.Fields.map initOf) := by
  refine ⟨?_, ?_, ?_, ?_⟩
  · intro n nr ty tg v rest pt htag hprint
    simp [collectFields, htag, hprint, fieldNameOf]
  · intro f h
    simp [paramOf, initOf, h]
  · intro f h
    simp [paramOf, initOf, h]
  · intro p
    exact ⟨rfl, rfl⟩

/-- C3 (witness): the empty `required` value makes the field `Key` an
ordinary parameter `key string`. -/
theorem c3_witness :
    collectFields [⟨["Key"], Expr.ident "string", some "`required:\"\"`"⟩]
      = RunResult.ok [⟨"string", "Key", ""⟩]
    ∧ paramOf ⟨"string", "Key", ""⟩ = some ("key", "string") := by
  constructor
  · have h := c3_required_value_modes.1 "Key" [] (Expr.ident "string")
      "`required:\"\"`" "" [] "string" (by decide) rfl
    simpa using h
  · have h := (c3_required_value_modes.2.2.1 ⟨"string", "Key", ""⟩ rfl).1
    rw [h]
    decide

/-- C4 (counterexample): a failure to execute the second (whole-file)
template is returned as an error value to the caller of `Run`, not
panicked: the claim that every template parse/execute failure panics is
false. -/
theorem c4_counterexample :
    runPackage envOutExec c4Pkg = RunResult.error outExecMsg := by
  rfl

/-- C4 (amended): a parse failure of either template panics (via
`template.Must`), and an execution failure of the constructor template
panics; but an execution failure of the whole-file template is returned
to the caller as an error. -/
theorem c4_template_failure_modes :
    ∀ (pn fn tname : String) (doc : List String) (ptr : Bool)
      (imps : List ImportSpec) (fields : List Field) (infos : List FieldInfo),
      findMarker doc = (true, ptr) →
      collectFields fields = RunResult.ok infos →
      runPackage envCtorParse (mkSinglePkg pn fn doc tname fields imps)
          = RunResult.panicked ctorParseMsg
      ∧ runPackage envCtorExec (mkSinglePkg pn fn doc tname fields imps)
          = RunResult.panicked ctorExecMsg
      ∧ runPackage envOutParse (mkSinglePkg pn fn doc tname fields imps)
          = RunResult.panicked outParseMsg
      ∧ runPackage envOutExec (mkSinglePkg pn fn doc tname fields imps)
          = RunResult.error outExecMsg := by
  intro pn fn tname doc ptr imps fields infos hmk hcf
  have hne : renderConstructor ⟨tname, infos, ptr⟩ ≠ "" :=
    renderConstructor_ne_empty _
  refine ⟨?_, ?_, ?_, ?_⟩
  · simp [runPackage, runPackageBody, sortedFiles, mkSinglePkg, processFile,
      processDecl, processSpec, hmk, hcf, envCtorParse]
  · simp [runPackage, runPackageBody, sortedFiles, mkSinglePkg, processFile,
      processDecl, processSpec, hmk, hcf, envCtorExec]
  · simp [runPackage, runPackageBody, sortedFiles, mkSinglePkg, processFile,
      processDecl, processSpec, hmk, hcf, envOutParse, hne]
  · simp [runPackage, runPackageBody, sortedFiles, mkSinglePkg, processFile,
      processDecl, processSpec, hmk, hcf, envOutExec, hne]

/-- C4 (witness): the four failure modes at a concrete one-struct
package. -/
theorem c4_witness :
    runPackage envCtorParse c4Pkg = RunResult.panicked ctorParseMsg
    ∧ runPackage envCtorExec c4Pkg = RunResult.panicked ctorExecMsg
    ∧ runPackage envOutParse c4Pkg = RunResult.panicked outParseMsg
    ∧ runPackage envOutExec c4Pkg = RunResult.error outExecMsg := by
  have h := c4_template_failure_modes "mypkg" "a.go" "Foo" ["//genconstructor"]
    false [] [⟨["B"], Expr.ident "int", some "`required:\"7\"`"⟩] [⟨"int", "B", "7"⟩]
    (by decide) (by decide)
  exact h

/-- C5 (counterexample): the marker test is a prefix test, not a
first-word-equality test: the doc line `//genconstructorfoo` selects
the struct for generation although its first word is not exactly
`//genconstructor`. -/
theorem c5_counterexample :
    processDecl noFailures [] (Decl.typeDecl ["//genconstructorfoo"]
        [⟨"T", TypeDef.structType []⟩])
      = RunResult.ok (renderConstructor ⟨"T", [], false⟩, [])
    ∧ firstWordIsMarker "//genconstructorfoo" = false := by
  constructor
  · rfl
  · decide

/-- C5 (amended): a type declaration is selected for generation iff
some doc comment line's whitespace-trimmed text starts with the marker
token `//genconstructor`, and within a selected declaration exactly the
specs whose declared type is a struct type produce a constructor. -/
theorem c5_marker_selection :
    (∀ doc : List String,
      (findMarker doc).1 = doc.any (fun c => hasPrefixGo (trimSpaceGo c) commentMarker))
    ∧ (∀ (env : FailureEnv) (imps : List ImportSpec) (doc : List String)
        (specs : List TypeSpec),
        doc.any (fun c => hasPrefixGo (trimSpaceGo c) commentMarker) = false →
        processDecl env imps (Decl.typeDecl doc specs) = RunResult.ok ("", []))
    ∧ (∀ (env : FailureEnv) (imps : List ImportSpec) (ptr : Bool) (tname : String),
        processSpec env imps ptr ⟨tname, TypeDef.nonStruct⟩ = RunResult.ok ("", []))
    ∧ (∀ (imps : List ImportSpec) (ptr : Bool) (tname : String)
        (fields : List Field) (infos : List FieldInfo),
        collectFields fields = RunResult.ok infos →
        processSpec noFailures imps ptr ⟨tname, TypeDef.structType fields⟩
          = RunResult.ok (renderConstructor ⟨tname, infos, ptr⟩, importsFor imps infos)
        ∧ renderConstructor ⟨tname, infos, ptr⟩ ≠ "") := by
  refine ⟨findMarker_fst, ?_, ?_, ?_⟩
  · intro env imps doc specs h
    have h2 : (findMarker doc).1 = false := by rw [findMarker_fst]; exact h
    simp [processDecl, h2]
  · intro env imps ptr tname
    rfl
  · intro imps ptr tname fields infos hcf
    refine ⟨?_, renderConstructor_ne_empty _⟩
    simp [processSpec, hcf, noFailures]

/-- C5 (witness): a declaration without the marker produces nothing,
and a marked empty struct produces its constructor. -/
theorem c5_witness :
    processDecl noFailures [] (Decl.typeDecl ["// some doc"]
        [⟨"T", TypeDef.structType []⟩]) = RunResult.ok ("", [])
    ∧ processSpec noFailures [] false ⟨"T", TypeDef.structType []⟩
        = RunResult.ok (renderConstructor ⟨"T", [], false⟩, []) := by
  constructor
  · exact c5_marker_selection.2.1 noFailures [] ["// some doc"]
      [⟨"T", TypeDef.structType []⟩] (by decide)
  · have h := (c5_marker_selection.2.2.2 [] false "T" [] [] rfl).1
    simpa [importsFor] using h

/-- C6: when printing the declared type of a required-tagged field
fails, the whole run aborts returning that error: packages processed
before it keep their written files, and neither the failing package nor
any later package produces output. -/
theorem c6_print_error_aborts :
    ∀ (env : FailureEnv) (pre post : List Package) (pn fn tname : String)
      (doc : List String) (ptr : Bool) (imps : List ImportSpec)
      (ns : List String) (ty : Expr) (tg v pe : String) (fldRest : List Field),
      (∀ p ∈ pre, ∃ o, runPackage env p = RunResult.ok o) →
      findMarker doc = (true, ptr) →
      tagLookup "required" (trimBackquotes tg) = some v →
      printExpr ty = Except.error pe →
      runAll env (pre ++
          mkSinglePkg pn fn doc tname (⟨ns, ty, some tg⟩ :: fldRest) imps :: post)
        = RunOutcome.error (writtenOf env pre) pe := by
  intro env pre post pn fn tname doc ptr imps ns ty tg v pe fldRest hpre hmk htag hprint
  have hpkg : runPackage env
      (mkSinglePkg pn fn doc tname (⟨ns, ty, some tg⟩ :: fldRest) imps)
      = RunResult.error pe := by
    simp [runPackage, runPackageBody, sortedFiles, mkSinglePkg, processFile,
      processDecl, processSpec, collectFields, hmk, htag, hprint]
  rw [runAll_append_ok env pre _ hpre]
  simp [runAll, hpkg]

/-- C6 (witness): a concrete unprintable required field aborts the
whole (single-package) run with the print error. -/
theorem c6_witness :
    runAll noFailures ([] ++
        mkSinglePkg "p" "f.go" ["//genconstructor"] "T"
          [⟨["X"], Expr.bad, some "`required:\"1\"`"⟩] [] :: [])
      = RunOutcome.error (writtenOf noFailures []) printErrMsg := by
  exact c6_print_error_aborts noFailures [] [] "p" "f.go" "T" ["//genconstructor"]
    false [] ["X"] Expr.bad "`required:\"1\"`" "1" printErrMsg []
    (by intro p hp; simp at hp) (by decide) (by decide) rfl

/-- C7: the import resolution of `Run` coincides with the claim's
description — tokenise the field type text on characters that are
neither letters nor dots, and for each token containing a dot record
the first import matched by alias or (for unaliased imports) by the
last path segment — and the emitted constructor text never depends on
the import list, so an unmatched reference changes nothing and raises
no error. -/
theorem c7_import_resolution :
    (∀ (t : String) (imports : List ImportSpec),
        resolveImports t imports = specResolveImports t imports)
    ∧ (∀ (env : FailureEnv) (imps1 imps2 : List ImportSpec) (ptr : Bool)
        (sp : TypeSpec),
        bodyText (processSpec env imps1 ptr sp)
          = bodyText (processSpec env imps2 ptr sp)) := by
  constructor
  · intro t imports
    unfold resolveImports specResolveImports
    rw [foldl_resolve]
    simp
  · intro env imps1 imps2 ptr sp
    cases hsp : sp.type with
    | nonStruct => simp [processSpec, hsp]
    | structType fields =>
      simp only [processSpec, hsp]
      cases collectFields fields with
      | error e => rfl
      | panicked m => rfl
      | ok infos =>
        cases h1 : env.ctorParseFails with
        | true => simp [h1, bodyText]
        | false =>
          cases h2 : env.ctorExecFails with
          | true => simp [h1, h2, bodyText]
          | false => simp [h1, h2, bodyText]

/-- C8: the pointer option: when `-p` occurs among the
whitespace-separated fields of the first marker comment line, pointer
mode is set; pointer mode prefixes the return type with `*` and the
returned literal with `&`, and its absence leaves a by-value return. -/
theorem c8_pointer_mode :
    (∀ (doc : List String) (line : String),
        doc.find? (fun c => hasPrefixGo (trimSpaceGo c) commentMarker) = some line →
        findMarker doc = (true, (strFields line).contains pointerOpts))
    ∧ (∀ p : TmplParam,
        constructorReturnType p
          = (if p.Pointer then "*" ++ p.StructName else p.StructName)
        ∧ constructorLiteralHead p
          = (if p.Pointer then "&" ++ p.StructName else p.StructName))
    ∧ (∀ (imps : List ImportSpec) (doc : List String) (tname : String)
        (fields : List Field) (infos : List FieldInfo) (ptr : Bool),
        findMarker doc = (true, ptr) →
        collectFields fields = RunResult.ok infos →
        processDecl noFailures imps
            (Decl.typeDecl doc [⟨tname, TypeDef.structType fields⟩])
          = RunResult.ok (renderConstructor ⟨tname, infos, ptr⟩, importsFor imps infos)) := by
  refine ⟨findMarker_of_find?, ?_, ?_⟩
  · intro p
    cases hp : p.Pointer with
    | true => simp [constructorReturnType, constructorLiteralHead, hp]
    | false => simp [constructorReturnType, constructorLiteralHead, hp]
  · intro imps doc tname fields infos ptr hmk hcf
    simp [processDecl, processSpec, hmk, hcf, noFailures]

/-- C8 (witness): on the marker line `//genconstructor -p` pointer mode
is detected, and pointer mode produces `*T` and `&T`. -/
theorem c8_witness :
    findMarker ["// d", "//genconstructor -p"] = (true, true)
    ∧ constructorReturnType ⟨"T", [], true⟩ = "*T"
    ∧ constructorLiteralHead ⟨"T", [], true⟩ = "&T" := by
  refine ⟨?_, ?_, ?_⟩
  · have h := c8_pointer_mode.1 ["// d", "//genconstructor -p"]
      "//genconstructor -p" (by decide)
    rw [h]
    decide
  · have h := (c8_pointer_mode.2.1 ⟨"T", [], true⟩).1
    rw [h]
    decide
  · have h := (c8_pointer_mode.2.1 ⟨"T", [], true⟩).2
    rw [h]
    decide

/-- C9: the import block partitions the recorded imports into the
library-style group (fewer than three slash-separated segments and no
dot) and the rest, renders each group sorted by the textual comparison
of the quoted path — the groups separated by a blank line — matching
the claim-side rendering, and the per-group sort really sorts. -/
theorem c9_import_grouping :
    (∀ pkgs : List ImportSpec, fmtImports pkgs = specFmtImports pkgs)
    ∧ (∀ g : List ImportSpec, List.Sorted importLe (sortByPathValue g)) := by
  constructor
  · intro pkgs
    unfold fmtImports specFmtImports
    cases h : pkgs.isEmpty with
    | true => simp [h]
    | false =>
      simp only [h]
      rw [foldl_groups pkgs [] []]
      simp
  · intro g
    exact List.sorted_insertionSort importLe g

/-- C10: a marked struct embedding a nameless field whose type is the
selector expression `pkg.Type` with a `required` tag makes `Run` panic
on the type assertion to `*ast.Ident` — no error is returned and no
constructor is generated. -/
theorem c10_embedded_selector_panics :
    runPackage noFailures c10Pkg = RunResult.panicked assertIdentMsg
    ∧ runAll noFailures [c10Pkg] = RunOutcome.panicked [] assertIdentMsg := by
  exact ⟨rfl, rfl⟩

end Genconstructor
